import Mathlib

/-!
Shallow embedding of `fastboot/task.cpp` (Android fastboot task layer).

Each task's `Run` method is modelled as a pure function from an oracle
environment (device variable queries, partition resolution, the super-flash
helper, mode predicates) to the ordered list of device actions it performs,
paired with an optional fatal outcome (`die` / usage error), mirroring the
C++ trace semantics in which actions performed before a fatal abort have
already happened.
-/

/-- A sparse layout / image payload, modelled as its byte sequence. -/
abbrev Layout := List Nat

/-- Image descriptor held by an `ImageEntry` (fields used by task.cpp). -/
structure Image where
  img_name : String
  optional_if_no_image : Bool
deriving DecidableEq

/-- `ImageEntry = std::pair<const Image*, std::string>`: an image descriptor
together with its slot string. -/
abbrev ImageEntry := Image × String

/-- Fatal outcomes: `die(msg)` and `syntax_error(msg)` terminate the process. -/
inductive Fatal where
  | die (msg : String)
  | usage (msg : String)
deriving DecidableEq

/-- Device-facing actions a task can perform, in the order performed. -/
inductive DevAction where
  | doFlash (partition fname : String) (applyVbmeta : Bool)
  | rebootToUserspaceFastboot
  | waitForDisconnect
  | rebootTo (target : String)
  | reboot
  | download (name : String) (size : Nat)
  | rawCommand (cmd msg : String)
  | resizePartition (partition size : String)
  | deletePartition (partition : String)
  | erase (partition : String)
  | performFormat (partition : String) (fsType sz fsOptions : String)
  | flashPartitionFiles (superName : String) (files : List Layout)
deriving DecidableEq

/-- `FlashingPlan`: the shared session context fields read by task.cpp. -/
structure FlashingPlan where
  slot : String
  current_slot : String
  wants_wipe : Bool
  fs_options : String

/-- Oracle environment: the external collaborators task.cpp calls into.
`resolve` stands for the partition/slot resolution performed by
`do_for_partitions` (its callback is applied to each resolved concrete
partition in order); `getVar` returns `none` on a non-SUCCESS `GetVar`;
`openFile` returns `none` when the image source lacks the file;
`helperOpen`, `addPartition`, `getSparseLayout` and `willFlash` model the
`SuperFlashHelper` accumulator; `getPartitionName` models
`GetPartitionName(entry, current_slot)`.

`force` is Modelled from the spec: the explicit caller override for flashing
a dynamic partition from bootloader mode (the spec's "unless an override is
explicitly requested by the caller") is handled outside task.cpp and is not
under src/; per the spec, when the override is requested the flash
proceeds. -/
structure Env where
  supports_AB : Bool
  is_userspace_fastboot : Bool
  force : Bool
  should_flash_in_userspace : String → Bool
  is_logical : String → Bool
  resolve : String → String → Bool → List String
  getVar : String → Option String
  openFile : String → Option Nat
  fileSize : Nat → Nat
  getPartitionName : ImageEntry → String → String
  helperOpen : Nat → Bool
  addPartition : String → String → Bool → Bool
  getSparseLayout : Option Layout
  willFlash : String → Bool
  max_download : Nat

/-- The remediation message passed to `die` in `FlashTask::Run`
(adjacent C string literals concatenated). -/
def flashRemediation : String :=
  "The partition you are trying to flash is dynamic, and should be flashed via fastbootd. Please run:\n\n    fastboot reboot fastboot\n\nAnd try again. If you are intentionally trying to overwrite a fixed partition, use --force."

/-- `FlashTask` captured parameters. -/
structure FlashTask where
  pname : String
  fname : String
  slot : String
  apply_vbmeta : Bool

/-- The refusal condition in `FlashTask::Run`'s flash lambda:
`should_flash_in_userspace(partition) && !is_userspace_fastboot()`, with the
spec-modelled caller override (`env.force`) letting the flash proceed. -/
def flashRefused (env : Env) (partition : String) : Bool :=
  env.should_flash_in_userspace partition && !env.is_userspace_fastboot && !env.force

/-- The flash lambda applied to each resolved partition in order; a refusal
aborts with `die`, otherwise `do_flash` runs and the loop continues. -/
def runFlashList (env : Env) (t : FlashTask) : List String → List DevAction × Option Fatal
  | [] => ([], none)
  | p :: ps =>
      if flashRefused env p then
        ([], some (Fatal.die flashRemediation))
      else
        let r := runFlashList env t ps
        (DevAction.doFlash p t.fname t.apply_vbmeta :: r.1, r.2)

/-- `FlashTask::Run`: `do_for_partitions(pname_, slot_, flash, true)`. -/
def FlashTask.Run (env : Env) (t : FlashTask) : List DevAction × Option Fatal :=
  runFlashList env t (env.resolve t.pname t.slot true)

/-- `RebootTask` captured parameter (default constructor leaves it empty). -/
structure RebootTask where
  reboot_target : String := ""

/-- `RebootTask::Run`: dispatch on the requested target string. -/
def RebootTask.Run (env : Env) (t : RebootTask) : List DevAction × Option Fatal :=
  if t.reboot_target = "userspace" ∨ t.reboot_target = "fastboot" then
    if !env.is_userspace_fastboot then
      ([DevAction.rebootToUserspaceFastboot, DevAction.waitForDisconnect], none)
    else ([], none)
  else if t.reboot_target = "recovery" then
    ([DevAction.rebootTo "recovery", DevAction.waitForDisconnect], none)
  else if t.reboot_target = "bootloader" then
    ([DevAction.rebootTo "bootloader", DevAction.waitForDisconnect], none)
  else if t.reboot_target = "" then
    ([DevAction.reboot, DevAction.waitForDisconnect], none)
  else
    ([], some (Fatal.usage ("unknown reboot target " ++ t.reboot_target)))

/-- The super partition name resolution shared by `UpdateSuperTask::Run` and
`FlashSuperLayoutTask::Initialize`: `GetVar("super-partition-name")`, with
the name defaulting to `"super"` when the query does not succeed. -/
def superPartitionName (env : Env) : String :=
  (env.getVar "super-partition-name").getD "super"

/-- `UpdateSuperTask::Run`. -/
def UpdateSuperTask.Run (env : Env) (fp : FlashingPlan) : List DevAction :=
  match env.openFile "super_empty.img" with
  | none => []
  | some fd =>
      (if !env.is_userspace_fastboot then [DevAction.rebootToUserspaceFastboot] else []) ++
      [DevAction.download (superPartitionName env) (env.fileSize fd),
       DevAction.rawCommand
         ("update-super:" ++ superPartitionName env ++ (if fp.wants_wipe then ":wipe" else ""))
         "Updating super partition"]

/-- `ResizeTask` captured parameters. -/
structure ResizeTask where
  pname : String
  size : String
  slot : String

/-- `ResizeTask::Run`: for each resolved partition, resize only if logical. -/
def ResizeTask.Run (env : Env) (t : ResizeTask) : List DevAction :=
  (env.resolve t.pname t.slot false).filterMap fun p =>
    if env.is_logical p then some (DevAction.resizePartition p t.size) else none

/-- `DeleteTask::Run`. -/
def DeleteTask.Run (pname : String) : List DevAction :=
  [DevAction.deletePartition pname]

/-- `WipeTask::Run`. -/
def WipeTask.Run (env : Env) (fp : FlashingPlan) (pname : String) : List DevAction :=
  match env.getVar ("partition-type:" ++ pname) with
  | none => []
  | some partition_type =>
      if partition_type = "" then []
      else [DevAction.erase pname,
            DevAction.performFormat pname partition_type "" fp.fs_options]

/-- Modelled from the spec: the chunking utility (`resparse_file`, libsparse,
not under src/) splits an image into an ordered chunk sequence, each chunk at
most `n` bytes, lossless when concatenated in order. -/
def chunkList (l : Layout) (n : Nat) : List Layout :=
  if h : l = [] ∨ n = 0 then []
  else l.take n :: chunkList (l.drop n) n
termination_by l.length
decreasing_by
  push_neg at h
  have hl : 0 < l.length := List.length_pos.mpr h.1
  have h2 := h.2
  simp [List.length_drop]
  omega

/-- Modelled from the spec: `get_sparse_limit` (fastboot.cpp, not under src/)
compares a size against the transport's maximum single-transfer payload and
returns that limit when the size exceeds it, `0` (no resparse needed)
otherwise. -/
def get_sparse_limit (env : Env) (size : Nat) : Nat :=
  if env.max_download < size then env.max_download else 0

/-- `FlashSuperLayoutTask`: resolved super partition name plus the computed
sparse layout it exclusively owns. -/
structure FlashSuperLayoutTask where
  super_name : String
  sparse_layout : Layout
deriving DecidableEq

/-- `FlashSuperLayoutTask::Run`: resparse into chunks when the layout's
length exceeds the sparse limit, then flash the files to the super
partition in order. -/
def FlashSuperLayoutTask.Run (env : Env) (t : FlashSuperLayoutTask) : List DevAction :=
  let limit := get_sparse_limit env t.sparse_layout.length
  let files := if limit ≠ 0 then chunkList t.sparse_layout limit else [t.sparse_layout]
  [DevAction.flashPartitionFiles t.super_name files]

/-- The covered predicate used by `FlashSuperLayoutTask::Initialize`'s
`remove_if` callback: `helper->WillFlash(GetPartitionName(entry, current_slot))`. -/
def coveredEntry (env : Env) (fp : FlashingPlan) (entry : ImageEntry) : Bool :=
  env.willFlash (env.getPartitionName entry fp.current_slot)

/-- `FlashSuperLayoutTask::Initialize`. `os_images` is passed by reference in
the C++; the returned list is its state after the call (C++ mutates it only
on the success path, via the erase/remove_if idiom that removes every entry
the helper reports covered and keeps the rest in order). -/
def FlashSuperLayoutTask.Initialize (env : Env) (fp : FlashingPlan)
    (os_images : List ImageEntry) : Option FlashSuperLayoutTask × List ImageEntry :=
  if !env.supports_AB then (none, os_images)
  else if fp.slot = "all" then (none, os_images)
  else
    match env.openFile "super_empty.img" with
    | none => (none, os_images)
    | some fd =>
      match env.getVar ("partition-size:" ++ superPartitionName env) with
      | none => (none, os_images)
      | some _ =>
        if !env.helperOpen fd then (none, os_images)
        else if os_images.all (fun entry =>
            env.addPartition (env.getPartitionName entry fp.current_slot)
              entry.1.img_name entry.1.optional_if_no_image) then
          match env.getSparseLayout with
          | none => (none, os_images)
          | some s =>
              (some ⟨superPartitionName env, s⟩,
               os_images.filter (fun entry => !coveredEntry env fp entry))
        else (none, os_images)

/-- A concrete environment used to evaluate the embedding on closed inputs:
an A/B device in bootloader mode whose image source provides every file,
with one dynamic partition (`system_a`), one logical partition (`vendor_a`)
and a 2 GiB super partition reported only through `partition-size:super`. -/
def envA : Env where
  supports_AB := true
  is_userspace_fastboot := false
  force := false
  should_flash_in_userspace := fun p => p == "system_a"
  is_logical := fun p => p == "vendor_a"
  resolve := fun pname _ _ => [pname]
  getVar := fun s =>
    if s = "partition-size:super" then some "2147483648"
    else if s = "partition-type:userdata" then some "f2fs"
    else none
  openFile := fun _ => some 3
  fileSize := fun _ => 16
  getPartitionName := fun entry slot => entry.1.img_name ++ "_" ++ slot
  helperOpen := fun _ => true
  addPartition := fun _ _ _ => true
  getSparseLayout := some [7, 7]
  willFlash := fun p => p == "system_a"
  max_download := 4

/-- `envA` already running userspace fastboot. -/
def envU : Env := { envA with is_userspace_fastboot := true }

/-- `envA` with the caller override requested. -/
def envF : Env := { envA with force := true }

/-- `envA` without A/B support. -/
def envNoAB : Env := { envA with supports_AB := false }

/-- `envA` whose image source has no files at all. -/
def envN : Env := { envA with openFile := fun _ => none }

/-- `envA` on which every variable query fails. -/
def envNoSize : Env := { envA with getVar := fun _ => none }

/-- A concrete flashing plan targeting slot `a`. -/
def fpW : FlashingPlan := ⟨"a", "a", false, "discard"⟩

/-- `fpW` requesting slot `all`. -/
def fpAll : FlashingPlan := { fpW with slot := "all" }

/-- `fpW` requesting a full wipe. -/
def fpWipe : FlashingPlan := { fpW with wants_wipe := true }

/-- A system image descriptor. -/
def imgSystem : Image := { img_name := "system", optional_if_no_image := false }

/-- A boot image descriptor. -/
def imgBoot : Image := { img_name := "boot", optional_if_no_image := false }

/-- A concrete candidate image list. -/
def osW : List ImageEntry := [(imgSystem, ""), (imgBoot, "")]

/-- The remaining-image list after a successful `Initialize` on `envA`:
`system` resolves to `system_a`, which the helper will flash, so only the
boot entry remains. -/
def remW : List ImageEntry := [(imgBoot, "")]

/-- The task produced by a successful `Initialize` on `envA`. -/
def tIW : FlashSuperLayoutTask := ⟨"super", [7, 7]⟩

theorem chunkList_flatten (n : Nat) (hn : n ≠ 0) (l : Layout) :
    (chunkList l n).flatten = l := by
  have key : ∀ m : Nat, ∀ l : Layout, l.length = m → (chunkList l n).flatten = l := by
    intro m
    induction m using Nat.strong_induction_on with
    | _ m ih =>
      intro l hm
      rw [chunkList]
      split
      · rename_i h
        rcases h with h | h
        · simp [h]
        · exact absurd h hn
      · rename_i h
        push_neg at h
        have hlt : (l.drop n).length < m := by
          rw [← hm, List.length_drop]
          have hl : 0 < l.length := List.length_pos.mpr h.1
          have h2 : 0 < n := Nat.pos_of_ne_zero h.2
          omega
        rw [List.flatten_cons, ih _ hlt _ rfl, List.take_append_drop]
  exact key l.length l rfl

theorem chunkList_length_le (n : Nat) (l : Layout) :
    ∀ c ∈ chunkList l n, c.length ≤ n := by
  have key : ∀ m : Nat, ∀ l : Layout, l.length = m → ∀ c ∈ chunkList l n, c.length ≤ n := by
    intro m
    induction m using Nat.strong_induction_on with
    | _ m ih =>
      intro l hm c hc
      rw [chunkList] at hc
      split at hc
      · simp at hc
      · rename_i h
        push_neg at h
        rcases List.mem_cons.mp hc with hh | hh
        · subst hh
          rw [List.length_take]
          exact Nat.min_le_left _ _
        · have hlt : (l.drop n).length < m := by
            rw [← hm, List.length_drop]
            have hl : 0 < l.length := List.length_pos.mpr h.1
            have h2 : 0 < n := Nat.pos_of_ne_zero h.2
            omega
          exact ih _ hlt _ rfl c hh
  exact key l.length l rfl

theorem runFlashList_all_ok (env : Env) (t : FlashTask) (ps : List String)
    (h : ∀ p ∈ ps, flashRefused env p = false) :
    runFlashList env t ps =
      (ps.map fun p => DevAction.doFlash p t.fname t.apply_vbmeta, none) := by
  induction ps with
  | nil => rfl
  | cons p ps ih =>
      rw [runFlashList]
      rw [h p (List.mem_cons_self p ps)]
      simp only [Bool.false_eq_true, if_false, List.map_cons]
      rw [ih fun q hq => h q (List.mem_cons_of_mem p hq)]

theorem runFlashList_refused (env : Env) (t : FlashTask) (ps : List String)
    (h : ∃ p ∈ ps, flashRefused env p = true) :
    (runFlashList env t ps).2 = some (Fatal.die flashRemediation) := by
  induction ps with
  | nil => simp at h
  | cons p ps ih =>
      rw [runFlashList]
      by_cases hp : flashRefused env p = true
      · simp [hp]
      · simp only [hp, if_false, Bool.false_eq_true]
        rcases h with ⟨q, hq, hqr⟩
        rcases List.mem_cons.mp hq with rfl | hq2
        · exact absurd hqr hp
        · exact ih ⟨q, hq2, hqr⟩

theorem superLayoutInit_cases (env : Env) (fp : FlashingPlan) (os_images : List ImageEntry) :
    FlashSuperLayoutTask.Initialize env fp os_images = (none, os_images) ∨
    ∃ t, FlashSuperLayoutTask.Initialize env fp os_images =
      (some t, os_images.filter fun entry => !coveredEntry env fp entry) := by
  unfold FlashSuperLayoutTask.Initialize
  repeat' split
  all_goals first
    | exact Or.inl rfl
    | exact Or.inr ⟨_, rfl⟩

/-- C5: `RebootTask::Run` dispatches exactly per the reboot state machine:
target "bootloader" yields exactly one reboot-to("bootloader") followed by
exactly one wait-for-disconnect (likewise "recovery", and the empty target
with a normal reboot); "userspace" or "fastboot" transitions to userspace
fastboot only if not already there; any other target is a fatal usage error
aborting the session. -/
theorem rebootTask_dispatch (env : Env) (t : RebootTask) :
    (t.reboot_target = "bootloader" →
      RebootTask.Run env t =
        ([DevAction.rebootTo "bootloader", DevAction.waitForDisconnect], none) ∧
      (RebootTask.Run env t).1.count (DevAction.rebootTo "bootloader") = 1 ∧
      (RebootTask.Run env t).1.count DevAction.waitForDisconnect = 1) ∧
    (t.reboot_target = "recovery" →
      RebootTask.Run env t =
        ([DevAction.rebootTo "recovery", DevAction.waitForDisconnect], none)) ∧
    (t.reboot_target = "" →
      RebootTask.Run env t = ([DevAction.reboot, DevAction.waitForDisconnect], none)) ∧
    ((t.reboot_target = "userspace" ∨ t.reboot_target = "fastboot") →
      RebootTask.Run env t =
        (if env.is_userspace_fastboot then ([], none)
         else ([DevAction.rebootToUserspaceFastboot, DevAction.waitForDisconnect], none))) ∧
    (t.reboot_target ≠ "userspace" → t.reboot_target ≠ "fastboot" →
     t.reboot_target ≠ "recovery" → t.reboot_target ≠ "bootloader" → t.reboot_target ≠ "" →
      RebootTask.Run env t =
        ([], some (Fatal.usage ("unknown reboot target " ++ t.reboot_target)))) := by
  refine ⟨fun h => ?_, fun h => ?_, fun h => ?_, fun h => ?_,
          fun h1 h2 h3 h4 h5 => ?_⟩
  · have heq : RebootTask.Run env t =
        ([DevAction.rebootTo "bootloader", DevAction.waitForDisconnect], none) := by
      simp +decide [RebootTask.Run, h]
    exact ⟨heq, by rw [heq]; decide, by rw [heq]; decide⟩
  · simp +decide [RebootTask.Run, h]
  · simp +decide [RebootTask.Run, h]
  · rcases h with h | h <;>
      cases husr : env.is_userspace_fastboot <;>
      simp +decide [RebootTask.Run, h, husr]
  · simp +decide [RebootTask.Run, h1, h2, h3, h4, h5]

/-- Witness for C5 at concrete targets. -/
theorem rebootTask_dispatch_witness :
    RebootTask.Run envA { reboot_target := "bootloader" } =
      ([DevAction.rebootTo "bootloader", DevAction.waitForDisconnect], none) ∧
    RebootTask.Run envA { reboot_target := "recovery" } =
      ([DevAction.rebootTo "recovery", DevAction.waitForDisconnect], none) ∧
    RebootTask.Run envA { reboot_target := "" } =
      ([DevAction.reboot, DevAction.waitForDisconnect], none) ∧
    RebootTask.Run envA { reboot_target := "fastboot" } =
      ([DevAction.rebootToUserspaceFastboot, DevAction.waitForDisconnect], none) ∧
    RebootTask.Run envA { reboot_target := "dfu" } =
      ([], some (Fatal.usage ("unknown reboot target " ++ "dfu"))) :=
  ⟨((rebootTask_dispatch envA _).1 rfl).1,
   (rebootTask_dispatch envA _).2.1 rfl,
   (rebootTask_dispatch envA _).2.2.1 rfl,
   by
     have h := (rebootTask_dispatch envA { reboot_target := "fastboot" }).2.2.2.1 (Or.inr rfl)
     simpa [envA] using h,
   (rebootTask_dispatch envA _).2.2.2.2 (by decide) (by decide) (by decide) (by decide)
     (by decide)⟩

/-- C10: when the requested target is "userspace" or "fastboot" and the device
is already running userspace fastboot, `RebootTask::Run` performs no device
interaction at all: no action is issued and no fatal occurs. -/
theorem rebootTask_userspace_noop (env : Env) (t : RebootTask)
    (htarget : t.reboot_target = "userspace" ∨ t.reboot_target = "fastboot")
    (husr : env.is_userspace_fastboot = true) :
    RebootTask.Run env t = ([], none) := by
  rcases htarget with h | h <;> simp +decide [RebootTask.Run, h, husr]

/-- Witness for C10: an already-userspace device. -/
theorem rebootTask_userspace_noop_witness :
    RebootTask.Run envU { reboot_target := "userspace" } = ([], none) :=
  rebootTask_userspace_noop envU _ (Or.inl rfl) rfl

/-- C6: `WipeTask::Run` is a silent no-op when the partition-type query fails
or returns an empty type; otherwise it erases the partition and reformats it
with the detected type and the plan's format options. -/
theorem wipeTask_spec (env : Env) (fp : FlashingPlan) (pname : String) :
    ((env.getVar ("partition-type:" ++ pname) = none ∨
      env.getVar ("partition-type:" ++ pname) = some "") →
      WipeTask.Run env fp pname = []) ∧
    (∀ pt, env.getVar ("partition-type:" ++ pname) = some pt → pt ≠ "" →
      WipeTask.Run env fp pname =
        [DevAction.erase pname, DevAction.performFormat pname pt "" fp.fs_options]) := by
  constructor
  · intro h
    rcases h with h | h <;> simp [WipeTask.Run, h]
  · intro pt h hne
    simp [WipeTask.Run, h, hne]

/-- Witness for C6: a missing partition is a no-op, `userdata` is wiped. -/
theorem wipeTask_spec_witness :
    WipeTask.Run envA fpW "missing" = [] ∧
    WipeTask.Run envA fpW "userdata" =
      [DevAction.erase "userdata",
       DevAction.performFormat "userdata" "f2fs" "" fpW.fs_options] :=
  ⟨(wipeTask_spec envA fpW "missing").1 (Or.inl rfl),
   (wipeTask_spec envA fpW "userdata").2 "f2fs" rfl (by decide)⟩

/-- C7: `UpdateSuperTask::Run` is a silent no-op when `super_empty.img` is
absent; otherwise it transitions to userspace fastboot if needed, resolves
the super partition name (defaulting to "super" when the query fails),
downloads the template, and issues `update-super` with `:wipe` appended iff
the plan requests a full wipe. -/
theorem updateSuperTask_spec (env : Env) (fp : FlashingPlan) :
    (env.openFile "super_empty.img" = none → UpdateSuperTask.Run env fp = []) ∧
    (env.getVar "super-partition-name" = none → superPartitionName env = "super") ∧
    (∀ fd, env.openFile "super_empty.img" = some fd →
      UpdateSuperTask.Run env fp =
        (if env.is_userspace_fastboot then [] else [DevAction.rebootToUserspaceFastboot]) ++
        [DevAction.download (superPartitionName env) (env.fileSize fd),
         DevAction.rawCommand
           ("update-super:" ++ superPartitionName env ++
            (if fp.wants_wipe then ":wipe" else ""))
           "Updating super partition"]) := by
  refine ⟨fun h => by simp [UpdateSuperTask.Run, h],
          fun h => by simp [superPartitionName, h],
          fun fd h => ?_⟩
  cases husr : env.is_userspace_fastboot <;> simp [UpdateSuperTask.Run, h, husr]

/-- Witness for C7: absent template is a no-op; present template on a
bootloader-mode device with a wipe-requesting plan. -/
theorem updateSuperTask_spec_witness :
    UpdateSuperTask.Run envN fpW = [] ∧
    superPartitionName envA = "super" ∧
    UpdateSuperTask.Run envA fpWipe =
      (if envA.is_userspace_fastboot then [] else [DevAction.rebootToUserspaceFastboot]) ++
      [DevAction.download (superPartitionName envA) (envA.fileSize 3),
       DevAction.rawCommand
         ("update-super:" ++ superPartitionName envA ++
          (if fpWipe.wants_wipe then ":wipe" else ""))
         "Updating super partition"] :=
  ⟨(updateSuperTask_spec envN fpW).1 rfl,
   (updateSuperTask_spec envA fpW).2.1 rfl,
   (updateSuperTask_spec envA fpWipe).2.2 3 rfl⟩

/-- C8: `ResizeTask::Run` issues a resize command exactly for the resolved
partitions that are logical; a non-logical partition is silently skipped
(no resize action for it, and no fatal channel exists for this task). -/
theorem resizeTask_spec (env : Env) (t : ResizeTask) :
    (∀ p ∈ env.resolve t.pname t.slot false, env.is_logical p = true →
      DevAction.resizePartition p t.size ∈ ResizeTask.Run env t) ∧
    (∀ p, env.is_logical p = false →
      DevAction.resizePartition p t.size ∉ ResizeTask.Run env t) ∧
    (∀ a ∈ ResizeTask.Run env t, ∃ p ∈ env.resolve t.pname t.slot false,
      env.is_logical p = true ∧ a = DevAction.resizePartition p t.size) := by
  refine ⟨fun p hp hlog => ?_, fun p hlog hmem => ?_, fun a ha => ?_⟩
  · exact List.mem_filterMap.mpr ⟨p, hp, by simp [hlog]⟩
  · rcases List.mem_filterMap.mp hmem with ⟨q, hq, heq⟩
    by_cases hlq : env.is_logical q = true
    · rw [if_pos hlq] at heq
      have hqp : q = p := by
        have := Option.some.inj heq
        exact (DevAction.resizePartition.injEq q t.size p t.size).mp this |>.1
      rw [hqp] at hlq
      rw [hlog] at hlq
      exact Bool.false_ne_true hlq
    · rw [if_neg hlq] at heq
      exact Option.noConfusion heq
  · rcases List.mem_filterMap.mp ha with ⟨p, hp, heq⟩
    by_cases hlp : env.is_logical p = true
    · rw [if_pos hlp] at heq
      exact ⟨p, hp, hlp, (Option.some.inj heq).symm⟩
    · rw [if_neg hlp] at heq
      exact Option.noConfusion heq

/-- Witness for C8: the logical `vendor_a` is resized, the non-logical
`system` is skipped. -/
theorem resizeTask_spec_witness :
    DevAction.resizePartition "vendor_a" "4096" ∈
      ResizeTask.Run envA ⟨"vendor_a", "4096", "a"⟩ ∧
    DevAction.resizePartition "system" "4096" ∉
      ResizeTask.Run envA ⟨"system", "4096", "a"⟩ :=
  ⟨(resizeTask_spec envA ⟨"vendor_a", "4096", "a"⟩).1 "vendor_a" (by decide) rfl,
   (resizeTask_spec envA ⟨"system", "4096", "a"⟩).2.1 "system" rfl⟩

/-- Bridge: the refusal boolean holds exactly when the partition is dynamic,
the device is not in userspace fastboot, and no override was requested. -/
theorem flashRefused_iff (env : Env) (p : String) :
    flashRefused env p = true ↔
      (env.should_flash_in_userspace p = true ∧ env.is_userspace_fastboot = false ∧
       env.force = false) := by
  simp [flashRefused, Bool.and_eq_true, Bool.not_eq_true']
  tauto

/-- C2: for every resolved concrete partition, `FlashTask::Run` dies with the
remediation message when the partition is dynamic and the device is not in
userspace fastboot, unless the caller requested the override, in which case
(and whenever no resolved partition is refused) every resolved partition is
flashed with the given file and vbmeta flag, with no fatal outcome. -/
theorem flashTask_spec (env : Env) (t : FlashTask) :
    ((∀ p ∈ env.resolve t.pname t.slot true,
        ¬(env.should_flash_in_userspace p = true ∧ env.is_userspace_fastboot = false ∧
          env.force = false)) →
      FlashTask.Run env t =
        ((env.resolve t.pname t.slot true).map
          (fun p => DevAction.doFlash p t.fname t.apply_vbmeta), none)) ∧
    ((∃ p ∈ env.resolve t.pname t.slot true,
        env.should_flash_in_userspace p = true ∧ env.is_userspace_fastboot = false ∧
        env.force = false) →
      (FlashTask.Run env t).2 = some (Fatal.die flashRemediation)) ∧
    (env.force = true →
      FlashTask.Run env t =
        ((env.resolve t.pname t.slot true).map
          (fun p => DevAction.doFlash p t.fname t.apply_vbmeta), none)) := by
  refine ⟨fun h => ?_, fun h => ?_, fun hforce => ?_⟩
  · refine runFlashList_all_ok env t _ fun p hp => ?_
    have := h p hp
    rw [← flashRefused_iff env p] at this
    exact Bool.not_eq_true _ ▸ Bool.of_not_eq_true this
  · rcases h with ⟨p, hp, hprop⟩
    exact runFlashList_refused env t _ ⟨p, hp, (flashRefused_iff env p).mpr hprop⟩
  · refine runFlashList_all_ok env t _ fun p hp => ?_
    simp [flashRefused, hforce]

/-- Witness for C2: a dynamic partition is refused from bootloader mode, a
non-dynamic partition flashes, and the override lets the dynamic flash
proceed. -/
theorem flashTask_spec_witness :
    FlashTask.Run envA ⟨"boot_a", "boot.img", "a", true⟩ =
      ([DevAction.doFlash "boot_a" "boot.img" true], none) ∧
    (FlashTask.Run envA ⟨"system_a", "system.img", "a", false⟩).2 =
      some (Fatal.die flashRemediation) ∧
    FlashTask.Run envF ⟨"system_a", "system.img", "a", false⟩ =
      ([DevAction.doFlash "system_a" "system.img" false], none) :=
  ⟨(flashTask_spec envA ⟨"boot_a", "boot.img", "a", true⟩).1 (by decide),
   (flashTask_spec envA ⟨"system_a", "system.img", "a", false⟩).2.1
     ⟨"system_a", by decide, by decide⟩,
   (flashTask_spec envF ⟨"system_a", "system.img", "a", false⟩).2.2 rfl⟩

/-- C4: in `FlashSuperLayoutTask::Run`, if the layout's size exceeds the
transport's maximum single-transfer payload, the layout is split into an
ordered chunk sequence, each chunk at or under the limit, and the chunks are
transferred to the super partition in production order (their in-order
concatenation reconstructs the layout); otherwise the unsplit layout is the
sole chunk. -/
theorem flashSuperLayout_run_spec (env : Env) (t : FlashSuperLayoutTask) :
    (env.max_download < t.sparse_layout.length → env.max_download ≠ 0 →
      FlashSuperLayoutTask.Run env t =
        [DevAction.flashPartitionFiles t.super_name
          (chunkList t.sparse_layout env.max_download)] ∧
      (chunkList t.sparse_layout env.max_download).flatten = t.sparse_layout ∧
      ∀ c ∈ chunkList t.sparse_layout env.max_download, c.length ≤ env.max_download) ∧
    (t.sparse_layout.length ≤ env.max_download →
      FlashSuperLayoutTask.Run env t =
        [DevAction.flashPartitionFiles t.super_name [t.sparse_layout]]) := by
  constructor
  · intro hgt hne
    refine ⟨?_, chunkList_flatten _ hne _, chunkList_length_le _ _⟩
    simp [FlashSuperLayoutTask.Run, get_sparse_limit, hgt, hne]
  · intro hle
    have h : ¬ env.max_download < t.sparse_layout.length := Nat.not_lt.mpr hle
    simp [FlashSuperLayoutTask.Run, get_sparse_limit, h]

/-- Witness for C4: a six-byte layout against a four-byte limit is chunked
and reassembles; a two-byte layout is sent unsplit. -/
theorem flashSuperLayout_run_spec_witness :
    FlashSuperLayoutTask.Run envA ⟨"super", [1, 2, 3, 4, 5, 6]⟩ =
      [DevAction.flashPartitionFiles "super" (chunkList [1, 2, 3, 4, 5, 6] 4)] ∧
    (chunkList [1, 2, 3, 4, 5, 6] 4).flatten = [1, 2, 3, 4, 5, 6] ∧
    FlashSuperLayoutTask.Run envA ⟨"super", [1, 2]⟩ =
      [DevAction.flashPartitionFiles "super" [[1, 2]]] :=
  ⟨((flashSuperLayout_run_spec envA ⟨"super", [1, 2, 3, 4, 5, 6]⟩).1
      (by decide) (by decide)).1,
   ((flashSuperLayout_run_spec envA ⟨"super", [1, 2, 3, 4, 5, 6]⟩).1
      (by decide) (by decide)).2.1,
   (flashSuperLayout_run_spec envA ⟨"super", [1, 2]⟩).2 (by decide)⟩

/-- C1: after a successful `Initialize`, the remaining image list excludes
exactly those entries whose name, resolved against the current slot, the
helper reports as covered (`WillFlash`), and the relative order of the rest
is preserved (the result is a sublist of the input). -/
theorem superLayoutInit_removes_covered (env : Env) (fp : FlashingPlan)
    (os_images remaining : List ImageEntry) (t : FlashSuperLayoutTask)
    (h : FlashSuperLayoutTask.Initialize env fp os_images = (some t, remaining)) :
    remaining.Sublist os_images ∧
    ∀ entry, entry ∈ remaining ↔
      (entry ∈ os_images ∧
       env.willFlash (env.getPartitionName entry fp.current_slot) = false) := by
  rcases superLayoutInit_cases env fp os_images with hc | ⟨t2, hc⟩
  · rw [hc] at h
    simp at h
  · rw [hc] at h
    have hrem : remaining = os_images.filter fun entry => !coveredEntry env fp entry :=
      ((Prod.mk.injEq _ _ _ _).mp h).2.symm
    subst hrem
    refine ⟨List.filter_sublist _, fun entry => ?_⟩
    simp [List.mem_filter, coveredEntry]

/-- Witness for C1: on `envA` the covered `system` entry is removed and the
uncovered `boot` entry is kept. -/
theorem superLayoutInit_removes_covered_witness :
    remW.Sublist osW ∧
    ((imgSystem, "") ∈ remW ↔
      ((imgSystem, "") ∈ osW ∧
       envA.willFlash (envA.getPartitionName (imgSystem, "") fpW.current_slot) = false)) :=
  ⟨(superLayoutInit_removes_covered envA fpW osW remW tIW (by decide)).1,
   (superLayoutInit_removes_covered envA fpW osW remW tIW (by decide)).2 (imgSystem, "")⟩

/-- C3: `Initialize` returns no task and leaves the caller's list unchanged
whenever the device lacks A/B support, the requested slot is "all", the
image source has no `super_empty.img`, or the super partition size query
fails. -/
theorem superLayoutInit_gate (env : Env) (fp : FlashingPlan)
    (os_images : List ImageEntry)
    (h : env.supports_AB = false ∨ fp.slot = "all" ∨
         env.openFile "super_empty.img" = none ∨
         env.getVar ("partition-size:" ++ superPartitionName env) = none) :
    FlashSuperLayoutTask.Initialize env fp os_images = (none, os_images) := by
  rcases h with h | h | h | h <;>
    (unfold FlashSuperLayoutTask.Initialize; repeat' split) <;> simp_all

/-- Witness for C3: each gate condition on a concrete environment. -/
theorem superLayoutInit_gate_witness :
    FlashSuperLayoutTask.Initialize envA fpAll osW = (none, osW) ∧
    FlashSuperLayoutTask.Initialize envNoAB fpW osW = (none, osW) ∧
    FlashSuperLayoutTask.Initialize envN fpW osW = (none, osW) ∧
    FlashSuperLayoutTask.Initialize envNoSize fpW osW = (none, osW) :=
  ⟨superLayoutInit_gate envA fpAll osW (Or.inr (Or.inl rfl)),
   superLayoutInit_gate envNoAB fpW osW (Or.inl rfl),
   superLayoutInit_gate envN fpW osW (Or.inr (Or.inr (Or.inl rfl))),
   superLayoutInit_gate envNoSize fpW osW (Or.inr (Or.inr (Or.inr rfl)))⟩

/-- C9: on every path where `Initialize` returns no task, the caller's
candidate image list is left completely unchanged; entries are removed only
on the success path. -/
theorem superLayoutInit_failure_frame (env : Env) (fp : FlashingPlan)
    (os_images : List ImageEntry)
    (h : (FlashSuperLayoutTask.Initialize env fp os_images).1 = none) :
    (FlashSuperLayoutTask.Initialize env fp os_images).2 = os_images := by
  rcases superLayoutInit_cases env fp os_images with hc | ⟨t, hc⟩
  · rw [hc]
  · rw [hc] at h
    simp at h

/-- Witness for C9: a failing open leaves the list untouched. -/
theorem superLayoutInit_failure_frame_witness :
    (FlashSuperLayoutTask.Initialize envN fpW osW).2 = osW :=
  superLayoutInit_failure_frame envN fpW osW rfl
